import Mathlib

/-!
Verification of the task-scoring core of Smart-Task-Analyzer
(src/backend/tasks/scoring.py, class TaskScorer).

Shallow embedding conventions:
* Python floats are modelled as exact rationals (ℚ).
* A Python `datetime.date` is modelled by its proleptic-Gregorian ordinal
  (`date.toordinal`), an integer; `date(1, 1, 1)` has ordinal 1 and is a
  Monday, so `weekday d = (d - 1) % 7` with Monday = 0 ... Sunday = 6.
* `date.today()` is passed explicitly as the `today : Int` parameter.
* Python's run-stable builtin `hash` on strings is passed explicitly as an
  arbitrary function `pyhash : String → Int`.
* Python sets are modelled as duplicate-free lists with membership-based
  insert and remove; Python dicts (insertion ordered, last assignment wins)
  as association lists.
* Fallible code (a `KeyError` from `t['id']`) is modelled with `Option`:
  `none` is an uncaught exception.
-/

namespace TaskAnalyzer

/-! ## Dates: ordinals, weekday, ISO-8601 parsing (`date.fromisoformat`) -/

/-- Python `date.weekday()`: Monday = 0 ... Sunday = 6, for a date given by
its proleptic-Gregorian ordinal. -/
def weekday (ord : Int) : Int := (ord - 1) % 7

/-- Source `is_weekend` (scoring.py line 44): Saturday = 5, Sunday = 6. -/
def is_weekend (ord : Int) : Bool := decide (5 ≤ weekday ord)

/-- Day-by-day business-day counter, counting `n` consecutive days starting
at ordinal `s`; models the `while current <= end_date` loop body of
`count_business_days`. -/
def countBD (s : Int) : Nat → Nat
  | 0 => 0
  | n + 1 => (if is_weekend s then 0 else 1) + countBD (s + 1) n

/-- Source `count_business_days` (scoring.py line 48): business days in the
inclusive range from `start_date` to `end_date`, 0 when the range is empty. -/
def count_business_days (start_date end_date : Int) : Nat :=
  if start_date > end_date then 0
  else countBD start_date (end_date + 1 - start_date).toNat

/-- Gregorian leap-year test, as in Python's `calendar`/`datetime`. -/
def isLeapYear (y : Nat) : Bool := y % 4 == 0 && (y % 100 != 0 || y % 400 == 0)

/-- Length of month `m` (1-12) of year `y`. -/
def daysInMonth (y m : Nat) : Nat :=
  if m = 2 then (if isLeapYear y then 29 else 28)
  else if m = 4 ∨ m = 6 ∨ m = 9 ∨ m = 11 then 30
  else 31

/-- Days of year `y` that precede month `m`. -/
def daysBeforeMonth (y m : Nat) : Nat :=
  (List.range (m - 1)).foldl (fun acc i => acc + daysInMonth y (i + 1)) 0

/-- Days that precede January 1 of year `y` (proleptic Gregorian). -/
def daysBeforeYear (y : Nat) : Nat :=
  365 * (y - 1) + (y - 1) / 4 - (y - 1) / 100 + (y - 1) / 400

/-- Python `date(y, m, d).toordinal()`. -/
def toOrdinal (y m d : Nat) : Nat := daysBeforeYear y + daysBeforeMonth y m + d

/-- Value of a decimal digit character. -/
def digitVal (c : Char) : Option Nat :=
  if c.isDigit then some (c.toNat - 48) else none

/-- Two decimal digits. -/
def parse2 (a b : Char) : Option Nat := do
  let x ← digitVal a
  let y ← digitVal b
  pure (10 * x + y)

/-- Four decimal digits. -/
def parse4 (a b c d : Char) : Option Nat := do
  let x ← parse2 a b
  let y ← parse2 c d
  pure (100 * x + y)

/-- Python `date.fromisoformat`: accepts exactly `YYYY-MM-DD` with a valid
calendar date (year 1-9999); returns the date's ordinal, or `none` on the
`ValueError` the source catches. -/
def fromisoformat (s : String) : Option Int :=
  match s.toList with
  | [y1, y2, y3, y4, h1, m1, m2, h2, d1, d2] =>
    if h1 = '-' ∧ h2 = '-' then do
      let y ← parse4 y1 y2 y3 y4
      let m ← parse2 m1 m2
      let d ← parse2 d1 d2
      if 1 ≤ y ∧ y ≤ 9999 ∧ 1 ≤ m ∧ m ≤ 12 ∧ 1 ≤ d ∧ d ≤ daysInMonth y m
      then pure (toOrdinal y m d : Int)
      else none
    else none
  | _ => none

/-! ## Task records -/

/-- The `due_date` value a task may carry: a string (parsed by
`fromisoformat`), an actual date object (used unparsed by the source), or a
non-date value such as `None` (raises `TypeError`, caught by the source). -/
inductive DueDate where
  | str (s : String)
  | dateObj (ord : Int)
  | pyNone
deriving DecidableEq, Repr

/-- A task record. Semantic fields are typed per spec section 3; `none`
models an absent key. `extra` carries any further fields of the caller's
record, which the scoring core never reads or writes. -/
structure Task where
  id : Option String
  title : Option String
  due_date : Option DueDate
  estimated_hours : Option ℚ
  importance : Option Int
  dependencies : Option (List String)
  extra : List (String × String)
deriving DecidableEq, Repr

/-- Python `t.get('dependencies', [])`. -/
def deps (t : Task) : List String := t.dependencies.getD []

/-! ## Strategy weights -/

/-- The four strategy weights of `_get_weights` (scoring.py line 14). -/
structure Weights where
  urgency : ℚ
  importance : ℚ
  effort : ℚ
  dependencies : ℚ
deriving DecidableEq, Repr

/-- Source `_get_weights`: fixed table, unknown names fall back to
`smart_balance`. -/
def get_weights (strategy : String) : Weights :=
  if strategy = "smart_balance" then ⟨0.35, 0.30, 0.15, 0.20⟩
  else if strategy = "fastest_wins" then ⟨0.20, 0.20, 0.50, 0.10⟩
  else if strategy = "high_impact" then ⟨0.15, 0.60, 0.10, 0.15⟩
  else if strategy = "deadline_driven" then ⟨0.60, 0.20, 0.05, 0.15⟩
  else ⟨0.35, 0.30, 0.15, 0.20⟩

/-! ## Leaf score models -/

/-- The date obtained from a `due_date` value: a string is parsed with
`fromisoformat` (a failure is the caught `ValueError`), a date object is
used directly, and `None` hits the caught `TypeError`. -/
def parseDue : DueDate → Option Int
  | .str s => fromisoformat s
  | .dateObj d => some d
  | .pyNone => none

/-- Source `calculate_urgency_score` (scoring.py line 63), with `today`
injected. -/
def calculate_urgency_score (due_date_str : DueDate) (today : Int) : ℚ :=
  match parseDue due_date_str with
  | none => 50
  | some due_date =>
    let calendar_days : Int := due_date - today
    let business_days : ℚ := (count_business_days today due_date : ℚ)
    let weekend_penalty : ℚ := if is_weekend due_date then 5 else 0
    if calendar_days < 0 then
      100 + min ((calendar_days.natAbs : ℚ) * 5) 100
    else if calendar_days ≤ 1 then
      95 - weekend_penalty
    else if calendar_days ≤ 7 then
      (if business_days ≤ 3 then 90 - weekend_penalty
       else 85 - business_days * 2 - weekend_penalty)
    else if calendar_days ≤ 14 then
      70 - (business_days - 5) * 2 - weekend_penalty
    else if calendar_days ≤ 30 then
      max (50 - (business_days - 10) * 1.5) 20 - weekend_penalty
    else
      max (20 - ((calendar_days : ℚ) - 30) * 0.5) 5

/-- Source `calculate_effort_score` (scoring.py line 114). -/
def calculate_effort_score (estimated_hours : ℚ) : ℚ :=
  if estimated_hours ≤ 0 then 50
  else if estimated_hours < 2 then 90
  else if estimated_hours ≤ 8 then 70 - (estimated_hours - 2) * 5
  else max (30 - (estimated_hours - 8) * 2) 10

/-- Source `calculate_importance_score` (scoring.py line 133):
`min(max(importance, 1), 10) * 10`. -/
def calculate_importance_score (importance : Int) : ℚ :=
  ((min (max importance 1) 10 : Int) : ℚ) * 10

/-- Source `calculate_dependency_score` (scoring.py line 139). -/
def calculate_dependency_score (task_id : String) (all_tasks : List Task) : ℚ :=
  let dependent_count := (all_tasks.filter (fun t => task_id ∈ deps t)).length
  if dependent_count = 0 then 30
  else min (30 + (dependent_count : ℚ) * 25) 100

/-! ## Cycle detection (`detect_circular_dependencies`, scoring.py line 156) -/

/-- The three mutable sets of the source's DFS: closure variables `visited`
and `circular`, and the per-root `rec_stack`. -/
structure DfsState where
  visited : List String
  recStack : List String
  circular : List String
deriving DecidableEq, Repr

/-- Python `set.add`. -/
def setInsert (a : String) (l : List String) : List String :=
  if a ∈ l then l else a :: l

/-- Python `set.remove` (the element is present when the source calls it). -/
def setRemove (a : String) (l : List String) : List String :=
  l.filter (fun x => x ≠ a)

/-- `circular.add`. -/
def addCirc (a : String) (st : DfsState) : DfsState :=
  { st with circular := setInsert a st.circular }

/-- One Python dict assignment `m[k] = v`: replace in place if the key
exists (keeping its position), else append. -/
def dictInsert (k : String) (v : List String) :
    List (String × List String) → List (String × List String)
  | [] => [(k, v)]
  | (k', v') :: rest =>
    if k' = k then (k, v) :: rest else (k', v') :: dictInsert k v rest

/-- The dict comprehension `{t['id']: t.get('dependencies', []) for t in tasks}`.
`t['id']` on a task without an id raises `KeyError`, modelled as `none`. -/
def buildTaskMap (tasks : List Task) : Option (List (String × List String)) :=
  tasks.foldl
    (fun acc t => do
      let m ← acc
      let i ← t.id
      pure (dictInsert i (deps t) m))
    (some [])

/-- `task_map.get(task_id, [])`. -/
def lookupDeps (tm : List (String × List String)) (k : String) : List String :=
  ((tm.find? (fun p => p.1 = k)).map Prod.snd).getD []

/-- The `for dep in task_map.get(task_id, [])` loop body of `has_cycle`,
with the recursive call abstracted as `f`.  On a back edge it flags the
current node and the neighbor; when recursion reports a cycle it flags the
current node; either way it early-returns `true`. -/
def visitDeps (f : String → DfsState → Bool × DfsState) (task_id : String) :
    List String → DfsState → Bool × DfsState
  | [], st => (false, st)
  | dep :: rest, st =>
    if dep ∉ st.visited then
      match f dep st with
      | (true, st') => (true, addCirc task_id st')
      | (false, st') => visitDeps f task_id rest st'
    else if dep ∈ st.recStack then
      (true, addCirc dep (addCirc task_id st))
    else
      visitDeps f task_id rest st

/-- Source `has_cycle`: add the node to `visited` and `rec_stack`, walk its
dependency edges, and pop the node from `rec_stack` only on the
no-cycle-found exit (the source's early `return True` skips the `remove`).
`fuel` bounds the recursion depth; callers pass more fuel than there are
task ids, so the 0 branch is never reached. -/
def hasCycle (tm : List (String × List String)) :
    Nat → String → DfsState → Bool × DfsState
  | 0, _, st => (false, st)
  | fuel + 1, task_id, st =>
    let st1 : DfsState :=
      { st with visited := setInsert task_id st.visited,
                recStack := setInsert task_id st.recStack }
    match visitDeps (hasCycle tm fuel) task_id (lookupDeps tm task_id) st1 with
    | (true, st2) => (true, st2)
    | (false, st2) => (false, { st2 with recStack := setRemove task_id st2.recStack })

/-- Fuel bound used by `detect_circular_dependencies`: strictly more than
the number of task ids mentioned anywhere in the batch. -/
def dfsFuel (tasks : List Task) : Nat :=
  tasks.length + (tasks.map (fun t => (deps t).length)).sum + 1

/-- Source `detect_circular_dependencies` (scoring.py line 156): build the
id → dependencies map (raising `KeyError`, i.e. `none`, if a task lacks an
id), then run a rooted DFS from every unvisited key in insertion order,
sharing `visited` and `circular` across roots and resetting `rec_stack`
per root. -/
def detect_circular_dependencies (tasks : List Task) : Option (List String) :=
  (buildTaskMap tasks).map (fun tm =>
    let st := (tm.map Prod.fst).foldl
      (fun st task_id =>
        if task_id ∉ st.visited then
          (hasCycle tm (dfsFuel tasks) task_id { st with recStack := [] }).2
        else st)
      ⟨[], [], []⟩
    st.circular)

/-! ## Rounding, aggregation and sorting -/

/-- Round a rational to the nearest integer, ties to even — the behavior of
Python's `round` on an exactly representable value. -/
def pyRoundInt (q : ℚ) : Int :=
  let f := ⌊q⌋
  if q - f < 1 / 2 then f
  else if q - f > 1 / 2 then f + 1
  else if f % 2 = 0 then f else f + 1

/-- Python `round(q, ndigits)`. -/
def roundTo (ndigits : Nat) (q : ℚ) : ℚ :=
  ((pyRoundInt (q * (10 ^ ndigits : ℕ)) : ℚ)) / ((10 ^ ndigits : ℕ) : ℚ)

/-- The `score_breakdown` mapping written by `calculate_priority_score`. -/
structure ScoreBreakdown where
  urgency : ℚ
  importance : ℚ
  effort : ℚ
  dependencies : ℚ
  final : ℚ
deriving DecidableEq, Repr

/-- A task record after scoring: the caller's record (`base`, untouched)
extended with the fields the core writes.  `has_circular_dependency = none`
models the key being absent. -/
structure ScoredTask where
  base : Task
  priority_score : ℚ
  score_breakdown : ScoreBreakdown
  has_circular_dependency : Option Bool
deriving DecidableEq, Repr

/-- `task.get('id', str(hash(task.get('title', ''))))` (scoring.py lines
193 and 237). -/
def derive_task_id (pyhash : String → Int) (task : Task) : String :=
  match task.id with
  | some i => i
  | none => toString (pyhash (task.title.getD ""))

/-- The default due date `str(date.today() + timedelta(days=30))`
(scoring.py line 194).  The source builds an ISO string and the urgency
model parses it straight back; since `fromisoformat` inverts `str` on every
valid date, the parsed value `today + 30` is embedded directly. -/
def default_due_date (today : Int) : DueDate := .dateObj (today + 30)

/-- Source `calculate_priority_score` (scoring.py line 188), with the
weights, the hash function and today injected. -/
def calculate_priority_score (w : Weights) (pyhash : String → Int)
    (today : Int) (task : Task) (all_tasks : List Task) : ScoredTask :=
  let task_id := derive_task_id pyhash task
  let due_date := task.due_date.getD (default_due_date today)
  let estimated_hours := task.estimated_hours.getD 5
  let importance := task.importance.getD 5
  let urgency := calculate_urgency_score due_date today
  let effort := calculate_effort_score estimated_hours
  let importance_score := calculate_importance_score importance
  let dependency := calculate_dependency_score task_id all_tasks
  let final_score :=
    urgency * w.urgency + importance_score * w.importance +
    effort * w.effort + dependency * w.dependencies
  { base := task
    priority_score := roundTo 2 final_score
    score_breakdown :=
      { urgency := roundTo 1 urgency
        importance := roundTo 1 importance_score
        effort := roundTo 1 effort
        dependencies := roundTo 1 dependency
        final := roundTo 2 final_score }
    has_circular_dependency := none }

/-- The loop body of `score_and_sort_tasks` (scoring.py lines 233-241):
score one task, then flag it if its id is in the cycle set. -/
def score_one_in_batch (w : Weights) (pyhash : String → Int) (today : Int)
    (circular : List String) (all_tasks : List Task) (task : Task) : ScoredTask :=
  let scored_task := calculate_priority_score w pyhash today task all_tasks
  let task_id := derive_task_id pyhash task
  if task_id ∈ circular then
    { scored_task with has_circular_dependency := some true }
  else scored_task

/-- Stable descending insertion: place `x` before the first element whose
score is at most `x`'s (so among equal scores, the earlier input comes
first).  Together with `sortByScoreDesc` this is extensionally Python's
`sorted(..., key=lambda x: x['priority_score'], reverse=True)`, which is
specified as a stable descending sort by that key. -/
def insertDesc (x : ScoredTask) : List ScoredTask → List ScoredTask
  | [] => [x]
  | y :: ys =>
    if y.priority_score ≤ x.priority_score then x :: y :: ys
    else y :: insertDesc x ys

/-- Stable descending sort by `priority_score`. -/
def sortByScoreDesc : List ScoredTask → List ScoredTask
  | [] => []
  | x :: xs => insertDesc x (sortByScoreDesc xs)

/-- Source `score_and_sort_tasks` (scoring.py line 224): detect cycles
(possibly raising `KeyError`), score and flag every task, sort descending
by score. -/
def score_and_sort_tasks (w : Weights) (pyhash : String → Int) (today : Int)
    (tasks : List Task) : Option (List ScoredTask) :=
  (detect_circular_dependencies tasks).map (fun circular =>
    sortByScoreDesc (tasks.map (score_one_in_batch w pyhash today circular tasks)))

/-! ## Spec section 4.2 reference urgency model

These definitions follow the words of spec section 4.2 (and are compared
with the embedded source functions in claim C2): business days are the
weekdays (Mon-Fri) of the inclusive range from today to the due date, 0 for
an empty range; the weekend penalty is 5 exactly when the due date is a
Saturday or a Sunday; the result is the stated piecewise formula evaluated
in the stated branch order. -/

/-- Spec: count of weekdays (Mon-Fri) in the inclusive range
from `today` to `due`; 0 when `today > due`. -/
def spec_business_days (today due : Int) : Nat :=
  if today > due then 0
  else (List.range (due + 1 - today).toNat).countP
    (fun k : Nat => decide (weekday (today + (k : Int)) < 5))

/-- Spec: weekend penalty is 5 exactly when the due date is a Saturday or a
Sunday. -/
def spec_weekend_penalty (due : Int) : ℚ :=
  if weekday due = 5 ∨ weekday due = 6 then 5 else 0

/-- Spec section 4.2 piecewise urgency reference, in the stated branch
order. -/
def spec_urgency (due today : Int) : ℚ :=
  let calendar_days : Int := due - today
  let business_days : ℚ := (spec_business_days today due : ℚ)
  let wp := spec_weekend_penalty due
  if calendar_days < 0 then 100 + min (|(calendar_days : ℚ)| * 5) 100
  else if calendar_days ≤ 1 then 95 - wp
  else if calendar_days ≤ 7 then
    (if business_days ≤ 3 then 90 - wp else 85 - business_days * 2 - wp)
  else if calendar_days ≤ 14 then 70 - (business_days - 5) * 2 - wp
  else if calendar_days ≤ 30 then max (50 - (business_days - 10) * 1.5) 20 - wp
  else max (20 - ((calendar_days : ℚ) - 30) * 0.5) 5

/-! ## Concrete batches used by the claims -/

/-- A task with id and dependency list only (all optional scoring fields
absent). -/
def depTask (i : String) (ds : List String) : Task :=
  ⟨some i, some i, none, none, none, some ds, []⟩

/-- The batch A depends on B, B depends on C, C depends on A, in that
order. -/
def cyclicBatch : List Task :=
  [depTask "A" ["B"], depTask "B" ["C"], depTask "C" ["A"]]

/-- The strictly acyclic chain A depends on B, B depends on C. -/
def acyclicBatch : List Task :=
  [depTask "A" ["B"], depTask "B" ["C"], depTask "C" []]

/-- A task that has a title but no id. -/
def titleOnlyTask : Task :=
  ⟨none, some "Write report", none, none, none, none, []⟩

/-- A second id-less task, used by the C4 counterexample. -/
def untitledTask : Task :=
  ⟨none, some "Ship release", none, none, none, some [], []⟩

/-- A task with dependencies duplicated, for claim C7. -/
def dupDeps (t : Task) : Task :=
  { t with dependencies := some (deps t ++ deps t) }

/-- The step function of `buildTaskMap`. -/
def buildStep (acc : Option (List (String × List String))) (t : Task) :
    Option (List (String × List String)) := do
  let m ← acc
  let i ← t.id
  pure (dictInsert i (deps t) m)


/-! ## Helper lemmas about dates -/

lemma weekday_nonneg (d : Int) : 0 ≤ weekday d :=
  Int.emod_nonneg _ (by norm_num)

lemma weekday_lt (d : Int) : weekday d < 7 :=
  Int.emod_lt_of_pos _ (by norm_num)

lemma is_weekend_iff (d : Int) :
    is_weekend d = true ↔ (weekday d = 5 ∨ weekday d = 6) := by
  have h1 := weekday_nonneg d
  have h2 := weekday_lt d
  unfold is_weekend
  constructor
  · intro h
    have := of_decide_eq_true h
    omega
  · intro h
    exact decide_eq_true (by omega)

lemma countBD_eq_countP (n : Nat) : ∀ s : Int,
    countBD s n = (List.range n).countP
      (fun k : Nat => decide (weekday (s + (k : Int)) < 5)) := by
  induction n with
  | zero => intro s; rfl
  | succ n ih =>
    intro s
    rw [List.range_succ_eq_map, List.countP_cons, List.countP_map]
    have hhead : (if is_weekend s then 0 else 1)
        = (if (decide (weekday (s + ((0 : Nat) : Int)) < 5)) = true then 1 else 0) := by
      have h1 := weekday_nonneg s
      have h2 := weekday_lt s
      simp only [Int.ofNat_zero, add_zero, is_weekend, decide_eq_true_eq]
      by_cases h : weekday s < 5
      · rw [if_pos h, if_neg (by omega)]
      · rw [if_neg h, if_pos (by omega)]
    have htail : List.countP ((fun k : Nat => decide (weekday (s + (k : Int)) < 5)) ∘ Nat.succ)
        (List.range n) = countBD (s + 1) n := by
      rw [ih (s + 1)]
      apply List.countP_congr
      intro k _
      simp only [Function.comp_apply]
      have : s + ((Nat.succ k : Nat) : Int) = s + 1 + (k : Int) := by
        push_cast; ring
      rw [this]
    unfold countBD
    rw [hhead, htail]
    ring

lemma count_business_days_eq_spec (t d : Int) :
    count_business_days t d = spec_business_days t d := by
  unfold count_business_days spec_business_days
  by_cases h : t > d
  · rw [if_pos h, if_pos h]
  · rw [if_neg h, if_neg h, countBD_eq_countP]

lemma natAbs_cast_eq_abs (n : Int) : ((n.natAbs : ℚ)) = |(n : ℚ)| := by
  rw [Nat.cast_natAbs, Int.cast_abs]

lemma weekend_penalty_eq (d : Int) :
    (if is_weekend d then (5 : ℚ) else 0) = spec_weekend_penalty d := by
  unfold spec_weekend_penalty
  by_cases h : is_weekend d
  · rw [if_pos h, if_pos ((is_weekend_iff d).mp h)]
  · rw [if_neg h]
    rw [if_neg (fun hc => h ((is_weekend_iff d).mpr hc))]

lemma parseDue_str (s : String) : parseDue (.str s) = fromisoformat s := rfl

/-- Code-level urgency on a successfully parsed date equals the spec
reference. -/
lemma urgency_parsed_eq_spec (x : DueDate) (due today : Int)
    (h : parseDue x = some due) :
    calculate_urgency_score x today = spec_urgency due today := by
  unfold calculate_urgency_score spec_urgency
  rw [h]
  simp only [count_business_days_eq_spec, weekend_penalty_eq,
    natAbs_cast_eq_abs]

/-! ## Claim C2 -/

/-- C2: for every parseable due date and every fixed today,
`calculate_urgency_score` equals the piecewise reference definition of spec
section 4.2 (`spec_urgency`), whose branches are evaluated in the stated
order, with business days counted over the inclusive range from today to
the due date and a weekend penalty of 5 exactly when the due date falls on
a Saturday or Sunday. -/
theorem C2_urgency_matches_spec (s : String) (due today : Int)
    (h : fromisoformat s = some due) :
    calculate_urgency_score (.str s) today = spec_urgency due today :=
  urgency_parsed_eq_spec (.str s) due today ((parseDue_str s).trans h)

/-- Witness for C2 at the concrete date 0001-01-08 (ordinal 8) with today
= 0001-01-01 (ordinal 1). -/
theorem C2_urgency_matches_spec_witness :
    fromisoformat "0001-01-08" = some 8 ∧
    calculate_urgency_score (.str "0001-01-08") 1 = spec_urgency 8 1 :=
  ⟨by decide, C2_urgency_matches_spec "0001-01-08" 8 1 (by decide)⟩

/-! ## Claim C5 -/

/-- C5: on the batch where A depends on B, B depends on C and C depends on
A, `detect_circular_dependencies` returns exactly the set of ids A, B, C;
on the strictly acyclic chain A depends on B, B depends on C it returns the
empty set. -/
theorem C5_detect_cycles_examples :
    (∃ l, detect_circular_dependencies cyclicBatch = some l ∧
      ∀ x, x ∈ l ↔ (x = "A" ∨ x = "B" ∨ x = "C")) ∧
    detect_circular_dependencies acyclicBatch = some [] := by
  refine ⟨⟨["B", "A", "C"], by decide, ?_⟩, by decide⟩
  intro x
  simp only [List.mem_cons, List.not_mem_nil, or_false]
  tauto

/-! ## Claim C7 -/

/-- C7: `calculate_dependency_score` returns 30 when no task's dependency
list contains the id, else `min (30 + dependent_count * 25) 100`, where
`dependent_count` counts the tasks (self-references included) whose list
contains the id — each task at most once, so duplicating every dependency
list leaves the score unchanged. -/
theorem C7_dependency_score_formula (task_id : String) (tasks : List Task) :
    (calculate_dependency_score task_id tasks =
      if tasks.countP (fun t => decide (task_id ∈ deps t)) = 0 then 30
      else min (30 + (tasks.countP (fun t => decide (task_id ∈ deps t)) : ℚ) * 25) 100) ∧
    calculate_dependency_score task_id (tasks.map dupDeps) =
      calculate_dependency_score task_id tasks := by
  have hcount : ∀ l : List Task,
      (l.filter (fun t => task_id ∈ deps t)).length
        = l.countP (fun t => decide (task_id ∈ deps t)) := by
    intro l
    rw [List.countP_eq_length_filter]
  have hdup : (tasks.map dupDeps).countP (fun t => decide (task_id ∈ deps t))
      = tasks.countP (fun t => decide (task_id ∈ deps t)) := by
    rw [List.countP_map]
    apply List.countP_congr
    intro t _
    simp only [Function.comp_apply, dupDeps, deps, Option.getD_some, decide_eq_decide,
      List.mem_append, or_self]
  constructor
  · unfold calculate_dependency_score
    rw [hcount]
  · unfold calculate_dependency_score
    rw [hcount, hcount, hdup]

/-! ## Claim C8 -/

/-- C8: a due date that is missing (Python `None`, the caught `TypeError`)
or fails to parse as an ISO-8601 calendar date yields urgency exactly 50,
with no error propagated. -/
theorem C8_invalid_date_default (s : String) (today : Int)
    (h : fromisoformat s = none) :
    calculate_urgency_score (.str s) today = 50 ∧
    calculate_urgency_score .pyNone today = 50 := by
  constructor
  · unfold calculate_urgency_score
    rw [parseDue_str, h]
  · rfl

/-- Witness for C8 on a ten-character non-date string. -/
theorem C8_invalid_date_default_witness :
    fromisoformat "not-a-date" = none ∧
    (calculate_urgency_score (.str "not-a-date") 1 = 50 ∧
     calculate_urgency_score .pyNone 1 = 50) :=
  ⟨by decide, C8_invalid_date_default "not-a-date" 1 (by decide)⟩

/-! ## Claim C9 -/

/-- C9: on hours at least 2, the effort score is monotonically
non-increasing. -/
theorem C9_effort_monotone (h1 h2 : ℚ) (ha : 2 ≤ h1) (hb : h1 ≤ h2) :
    calculate_effort_score h2 ≤ calculate_effort_score h1 := by
  unfold calculate_effort_score
  rw [if_neg (by linarith : ¬h1 ≤ 0), if_neg (by linarith : ¬h1 < 2),
      if_neg (by linarith : ¬h2 ≤ 0), if_neg (by linarith : ¬h2 < 2)]
  by_cases hc1 : h1 ≤ 8
  · rw [if_pos hc1]
    by_cases hc2 : h2 ≤ 8
    · rw [if_pos hc2]
      linarith
    · rw [if_neg hc2]
      apply max_le <;> linarith
  · rw [if_neg hc1, if_neg (by linarith : ¬h2 ≤ 8)]
    apply max_le
    · exact le_trans (by linarith : (30 : ℚ) - (h2 - 8) * 2 ≤ 30 - (h1 - 8) * 2)
        (le_max_left _ _)
    · exact le_max_right _ _

/-- Witness for C9 at hours 2 and 9. -/
theorem C9_effort_monotone_witness :
    (2 : ℚ) ≤ 2 ∧ (2 : ℚ) ≤ 9 ∧
    calculate_effort_score 9 ≤ calculate_effort_score 2 :=
  ⟨by decide, by decide, C9_effort_monotone 2 9 (by decide) (by decide)⟩

/-! ## Claim C10 -/

/-- The effort score always lies in the closed interval from 10 to 90. -/
lemma effort_score_bounds (h : ℚ) :
    10 ≤ calculate_effort_score h ∧ calculate_effort_score h ≤ 90 := by
  unfold calculate_effort_score
  by_cases h0 : h ≤ 0
  · rw [if_pos h0]; norm_num
  rw [if_neg h0]
  by_cases h2 : h < 2
  · rw [if_pos h2]; norm_num
  rw [if_neg h2]
  by_cases h8 : h ≤ 8
  · rw [if_pos h8]
    constructor <;> [linarith; linarith]
  · rw [if_neg h8]
    constructor
    · exact le_max_right _ _
    · apply max_le <;> linarith

/-- C10: the effort score always lies in the closed interval from 10 to 90,
whatever the (possibly negative or huge) input hours — tighter than the
spec's stated 0-100 range, and in particular never below 10. -/
theorem C10_effort_range (h : ℚ) :
    10 ≤ calculate_effort_score h ∧ calculate_effort_score h ≤ 90 :=
  effort_score_bounds h

/-! ## Claim C6: cycle-detection safety invariants -/

lemma mem_setInsert {x a : String} {l : List String} :
    x ∈ setInsert a l ↔ x = a ∨ x ∈ l := by
  unfold setInsert
  by_cases h : a ∈ l
  · rw [if_pos h]
    exact ⟨Or.inr, fun hx => hx.elim (fun e => e ▸ h) id⟩
  · rw [if_neg h]
    exact List.mem_cons

lemma mem_setRemove {x a : String} {l : List String} :
    x ∈ setRemove a l ↔ x ∈ l ∧ x ≠ a := by
  unfold setRemove
  simp [List.mem_filter]

lemma lookupDeps_ne_nil {tm : List (String × List String)} {k : String}
    (h : lookupDeps tm k ≠ []) : k ∈ tm.map Prod.fst := by
  unfold lookupDeps at h
  cases hfind : tm.find? (fun p => p.1 = k) with
  | none => rw [hfind] at h; simp at h
  | some p =>
    have hp : p ∈ tm := List.mem_of_find?_eq_some hfind
    have hk : p.1 = k := by
      have := List.find?_some hfind
      simpa using this
    exact hk ▸ List.mem_map_of_mem Prod.fst hp

/-- Invariant of the dependency loop: provided the abstracted recursive
call `f` preserves membership of `circular` and `rec_stack` in the key set
and only reports a cycle from a key, the loop does the same relative to
the current node. -/
lemma visitDeps_inv (tm : List (String × List String))
    (f : String → DfsState → Bool × DfsState)
    (hf : ∀ id st, (∀ x ∈ st.circular, x ∈ tm.map Prod.fst) →
      (∀ x ∈ st.recStack, x ∈ tm.map Prod.fst) →
      (∀ x ∈ (f id st).2.circular, x ∈ tm.map Prod.fst) ∧
      (∀ x ∈ (f id st).2.recStack, x ∈ tm.map Prod.fst) ∧
      ((f id st).1 = true → id ∈ tm.map Prod.fst))
    (task_id : String) :
    ∀ (ds : List String) (st : DfsState),
      (∀ x ∈ st.circular, x ∈ tm.map Prod.fst) →
      (∀ x ∈ st.recStack, x ∈ tm.map Prod.fst ∨ x = task_id) →
      (ds ≠ [] → task_id ∈ tm.map Prod.fst) →
      (∀ x ∈ (visitDeps f task_id ds st).2.circular, x ∈ tm.map Prod.fst) ∧
      (∀ x ∈ (visitDeps f task_id ds st).2.recStack,
        x ∈ tm.map Prod.fst ∨ x = task_id) ∧
      ((visitDeps f task_id ds st).1 = true → task_id ∈ tm.map Prod.fst) := by
  intro ds
  induction ds with
  | nil =>
    intro st hcirc hrec _
    exact ⟨hcirc, hrec, by intro hb; simp [visitDeps] at hb⟩
  | cons dep rest ih =>
    intro st hcirc hrec hne
    have htid : task_id ∈ tm.map Prod.fst := hne (by simp)
    have hrecK : ∀ x ∈ st.recStack, x ∈ tm.map Prod.fst :=
      fun x hx => (hrec x hx).elim id (fun e => e ▸ htid)
    simp only [visitDeps]
    by_cases hv : dep ∈ st.visited
    · rw [if_neg (by simp [hv])]
      by_cases hr : dep ∈ st.recStack
      · rw [if_pos hr]
        refine ⟨?_, fun x hx => Or.inl (hrecK x hx), fun _ => htid⟩
        intro x hx
        simp only [addCirc] at hx
        rcases mem_setInsert.mp hx with heq | hx'
        · rw [heq]; exact hrecK dep hr
        · rcases mem_setInsert.mp hx' with heq | hx''
          · rw [heq]; exact htid
          · exact hcirc x hx''
      · rw [if_neg hr]
        exact ih st hcirc hrec (fun _ => htid)
    · rw [if_pos (by simp [hv])]
      rcases hfd : f dep st with ⟨b, st'⟩
      have hfres := hf dep st hcirc hrecK
      rw [hfd] at hfres
      cases b
      · have := ih st' hfres.1 (fun x hx => Or.inl (hfres.2.1 x hx)) (fun _ => htid)
        simpa using this
      · refine ⟨?_, fun x hx => Or.inl (hfres.2.1 x hx), fun _ => htid⟩
        intro x hx
        simp only [addCirc] at hx
        rcases mem_setInsert.mp hx with heq | hx'
        · rw [heq]; exact htid
        · exact hfres.1 x hx'

/-- Invariant of `has_cycle`: starting from a state whose `circular` and
`rec_stack` sets hold only keys of the task map, the DFS keeps them that
way (whatever the fuel), and a reported cycle starts at a key. -/
lemma hasCycle_inv (tm : List (String × List String)) :
    ∀ (fuel : Nat) (task_id : String) (st : DfsState),
      (∀ x ∈ st.circular, x ∈ tm.map Prod.fst) →
      (∀ x ∈ st.recStack, x ∈ tm.map Prod.fst) →
      (∀ x ∈ (hasCycle tm fuel task_id st).2.circular, x ∈ tm.map Prod.fst) ∧
      (∀ x ∈ (hasCycle tm fuel task_id st).2.recStack, x ∈ tm.map Prod.fst) ∧
      ((hasCycle tm fuel task_id st).1 = true → task_id ∈ tm.map Prod.fst) := by
  intro fuel
  induction fuel with
  | zero =>
    intro task_id st hcirc hrec
    exact ⟨hcirc, hrec, by intro hb; simp [hasCycle] at hb⟩
  | succ n ih =>
    intro task_id st hcirc hrec
    simp only [hasCycle]
    set st1 : DfsState :=
      { st with visited := setInsert task_id st.visited,
                recStack := setInsert task_id st.recStack } with hst1
    have hst1circ : ∀ x ∈ st1.circular, x ∈ tm.map Prod.fst := hcirc
    have hst1rec : ∀ x ∈ st1.recStack, x ∈ tm.map Prod.fst ∨ x = task_id := by
      intro x hx
      rcases mem_setInsert.mp hx with heq | hx'
      · exact Or.inr heq
      · exact Or.inl (hrec x hx')
    have hne : lookupDeps tm task_id ≠ [] → task_id ∈ tm.map Prod.fst :=
      fun h => lookupDeps_ne_nil h
    have hmain := visitDeps_inv tm (hasCycle tm n)
      (fun id st hc hr => ih id st hc hr) task_id (lookupDeps tm task_id)
      st1 hst1circ hst1rec hne
    rcases hvd : visitDeps (hasCycle tm n) task_id (lookupDeps tm task_id) st1
      with ⟨b, st2⟩
    rw [hvd] at hmain
    cases b
    · refine ⟨hmain.1, ?_, by intro hb; simp at hb⟩
      intro x hx
      simp only [] at hx
      rcases mem_setRemove.mp hx with ⟨hx', hxne⟩
      exact (hmain.2.1 x hx').elim id (fun e => absurd e hxne)
    · have htid := hmain.2.2 rfl
      refine ⟨hmain.1, ?_, fun _ => htid⟩
      intro x hx
      exact (hmain.2.1 x hx).elim id (fun e => e ▸ htid)

/-- The root loop of `detect_circular_dependencies` keeps `circular` inside
the key set. -/
lemma rootLoop_inv (tm : List (String × List String)) (fuel : Nat) :
    ∀ (roots : List String) (st : DfsState),
      (∀ x ∈ st.circular, x ∈ tm.map Prod.fst) →
      ∀ x ∈ (roots.foldl
        (fun st task_id =>
          if task_id ∉ st.visited then
            (hasCycle tm fuel task_id { st with recStack := [] }).2
          else st) st).circular, x ∈ tm.map Prod.fst := by
  intro roots
  induction roots with
  | nil => intro st hcirc; simpa using hcirc
  | cons r rest ih =>
    intro st hcirc
    simp only [List.foldl_cons]
    apply ih
    by_cases hv : r ∈ st.visited
    · rw [if_neg (by simp [hv])]
      exact hcirc
    · rw [if_pos (by simp [hv])]
      exact (hasCycle_inv tm fuel r { st with recStack := [] } hcirc
        (by intro x hx; simp at hx)).1

lemma dictInsert_keys {k' k : String} {v : List String} :
    ∀ m : List (String × List String),
      k' ∈ (dictInsert k v m).map Prod.fst →
      k' = k ∨ k' ∈ m.map Prod.fst := by
  intro m
  induction m with
  | nil =>
    intro h
    simp only [dictInsert, List.map_cons, List.map_nil,
      List.mem_singleton] at h
    exact Or.inl h
  | cons p rest ih =>
    intro h
    simp only [dictInsert] at h
    by_cases hpk : p.1 = k
    · rw [if_pos hpk] at h
      rw [List.map_cons, List.mem_cons] at h
      rcases h with h | h
      · exact Or.inl h
      · exact Or.inr (by rw [List.map_cons, List.mem_cons]; exact Or.inr h)
    · rw [if_neg hpk] at h
      rw [List.map_cons, List.mem_cons] at h
      rcases h with h | h
      · exact Or.inr (by rw [List.map_cons, List.mem_cons]; exact Or.inl h)
      · rcases ih h with h' | h'
        · exact Or.inl h'
        · exact Or.inr (by rw [List.map_cons, List.mem_cons]; exact Or.inr h')

lemma buildTaskMap_eq_foldl (tasks : List Task) :
    buildTaskMap tasks = tasks.foldl buildStep (some []) := rfl

lemma foldl_buildStep_none (tasks : List Task) :
    tasks.foldl buildStep none = none := by
  induction tasks with
  | nil => rfl
  | cons t rest ih => simpa [buildStep] using ih

lemma foldl_buildStep_keys :
    ∀ (tasks : List Task) (m0 : List (String × List String))
      (tm : List (String × List String)),
      tasks.foldl buildStep (some m0) = some tm →
      ∀ k ∈ tm.map Prod.fst,
        k ∈ m0.map Prod.fst ∨ ∃ t ∈ tasks, t.id = some k := by
  intro tasks
  induction tasks with
  | nil =>
    intro m0 tm h k hk
    simp only [List.foldl_nil, Option.some_inj] at h
    exact Or.inl (h ▸ hk)
  | cons t rest ih =>
    intro m0 tm h k hk
    cases hid : t.id with
    | none =>
      rw [List.foldl_cons, show buildStep (some m0) t = none by
        simp [buildStep, hid], foldl_buildStep_none] at h
      exact absurd h (by simp)
    | some i =>
      rw [List.foldl_cons, show buildStep (some m0) t
        = some (dictInsert i (deps t) m0) by simp [buildStep, hid]] at h
      rcases ih (dictInsert i (deps t) m0) tm h k hk with h' | ⟨t', ht', hid'⟩
      · rcases dictInsert_keys m0 h' with rfl | h''
        · exact Or.inr ⟨t, by simp, hid⟩
        · exact Or.inl h''
      · exact Or.inr ⟨t', by simp [ht'], hid'⟩

lemma foldl_buildStep_some :
    ∀ (tasks : List Task) (m0 : List (String × List String)),
      (∀ t ∈ tasks, t.id.isSome = true) →
      ∃ tm, tasks.foldl buildStep (some m0) = some tm := by
  intro tasks
  induction tasks with
  | nil => exact fun m0 _ => ⟨m0, rfl⟩
  | cons t rest ih =>
    intro m0 hids
    rcases Option.isSome_iff_exists.mp (hids t (by simp)) with ⟨i, hi⟩
    rw [List.foldl_cons, show buildStep (some m0) t
      = some (dictInsert i (deps t) m0) by simp [buildStep, hi]]
    exact ih (dictInsert i (deps t) m0) (fun t' ht' => hids t' (by simp [ht']))

/-- C6: on any batch whose tasks all carry an id,
`detect_circular_dependencies` completes (no `KeyError`, whatever dangling
ids or self-loops the dependency lists contain), and every member of the
returned set is the id of some task of the batch — so a dangling id is
never returned. -/
theorem C6_detect_cycles_total_and_sound (tasks : List Task)
    (hids : ∀ t ∈ tasks, t.id.isSome = true) :
    ∃ circ, detect_circular_dependencies tasks = some circ ∧
      ∀ x ∈ circ, ∃ t ∈ tasks, t.id = some x := by
  rcases foldl_buildStep_some tasks [] hids with ⟨tm, htm⟩
  have hbuild : buildTaskMap tasks = some tm := htm
  refine ⟨_, by rw [detect_circular_dependencies, hbuild]; rfl, ?_⟩
  intro x hx
  have hkeys := rootLoop_inv tm (dfsFuel tasks) (tm.map Prod.fst)
    ⟨[], [], []⟩ (by intro y hy; simp at hy) x hx
  rcases foldl_buildStep_keys tasks [] tm htm x hkeys with h | h
  · simp at h
  · exact h

/-- Witness for C6: a batch with a self-loop and dangling ids. -/
theorem C6_detect_cycles_total_and_sound_witness :
    ∃ circ, detect_circular_dependencies
        [depTask "A" ["A", "ghost"], depTask "B" ["phantom"]] = some circ ∧
      ∀ x ∈ circ, ∃ t ∈ [depTask "A" ["A", "ghost"], depTask "B" ["phantom"]],
        t.id = some x :=
  C6_detect_cycles_total_and_sound
    [depTask "A" ["A", "ghost"], depTask "B" ["phantom"]] (by decide)

/-! ## Claim C4: sorting -/

lemma insertDesc_perm (x : ScoredTask) (l : List ScoredTask) :
    (insertDesc x l).Perm (x :: l) := by
  induction l with
  | nil => exact List.Perm.refl _
  | cons y ys ih =>
    unfold insertDesc
    by_cases h : y.priority_score ≤ x.priority_score
    · rw [if_pos h]
    · rw [if_neg h]
      exact (ih.cons y).trans (List.Perm.swap x y ys)

lemma sortByScoreDesc_perm (l : List ScoredTask) :
    (sortByScoreDesc l).Perm l := by
  induction l with
  | nil => exact List.Perm.refl _
  | cons x xs ih =>
    exact (insertDesc_perm x (sortByScoreDesc xs)).trans (ih.cons x)

lemma insertDesc_sorted {x : ScoredTask} {l : List ScoredTask}
    (hl : List.Sorted (fun a b : ScoredTask => b.priority_score ≤ a.priority_score) l) :
    List.Sorted (fun a b : ScoredTask => b.priority_score ≤ a.priority_score)
      (insertDesc x l) := by
  induction l with
  | nil => simp [insertDesc]
  | cons y ys ih =>
    rw [List.sorted_cons] at hl
    unfold insertDesc
    by_cases h : y.priority_score ≤ x.priority_score
    · rw [if_pos h, List.sorted_cons]
      refine ⟨?_, List.sorted_cons.mpr hl⟩
      intro b hb
      rcases List.mem_cons.mp hb with heq | hb'
      · rw [heq]; exact h
      · exact le_trans (hl.1 b hb') h
    · rw [if_neg h, List.sorted_cons]
      refine ⟨?_, ih hl.2⟩
      intro b hb
      have hb' : b ∈ x :: ys := (insertDesc_perm x ys).mem_iff.mp hb
      rcases List.mem_cons.mp hb' with heq | hb''
      · rw [heq]; linarith [lt_of_not_le h]
      · exact hl.1 b hb''

lemma sortByScoreDesc_sorted (l : List ScoredTask) :
    List.Sorted (fun a b : ScoredTask => b.priority_score ≤ a.priority_score)
      (sortByScoreDesc l) := by
  induction l with
  | nil => simp [sortByScoreDesc]
  | cons x xs ih => exact insertDesc_sorted ih

lemma insertDesc_filter (q : ℚ) (x : ScoredTask) (l : List ScoredTask) :
    (insertDesc x l).filter (fun s => decide (s.priority_score = q)) =
      if x.priority_score = q
      then x :: l.filter (fun s => decide (s.priority_score = q))
      else l.filter (fun s => decide (s.priority_score = q)) := by
  induction l with
  | nil =>
    unfold insertDesc
    by_cases hx : x.priority_score = q
    · rw [if_pos hx, List.filter_cons, if_pos (by simpa using hx)]
    · rw [if_neg hx, List.filter_cons, if_neg (by simpa using hx)]
  | cons y ys ih =>
    unfold insertDesc
    by_cases h : y.priority_score ≤ x.priority_score
    · rw [if_pos h]
      by_cases hx : x.priority_score = q
      · rw [List.filter_cons, if_pos (by simpa using hx), if_pos hx]
      · rw [List.filter_cons, if_neg (by simpa using hx), if_neg hx]
    · rw [if_neg h]
      by_cases hx : x.priority_score = q
      · have hy : ¬ y.priority_score = q := by
          intro hyq
          exact h (by rw [hyq, hx])
        rw [if_pos hx, List.filter_cons, if_neg (by simpa using hy), ih,
          if_pos hx, List.filter_cons, if_neg (by simpa using hy)]
      · rw [if_neg hx, List.filter_cons, ih, if_neg hx, List.filter_cons]

lemma sortByScoreDesc_filter (q : ℚ) (l : List ScoredTask) :
    (sortByScoreDesc l).filter (fun s => decide (s.priority_score = q)) =
      l.filter (fun s => decide (s.priority_score = q)) := by
  induction l with
  | nil => rfl
  | cons x xs ih =>
    rw [sortByScoreDesc, insertDesc_filter, List.filter_cons]
    by_cases hx : x.priority_score = q
    · rw [if_pos hx, if_pos (by simpa using hx), ih]
    · rw [if_neg hx, if_neg (by simpa using hx), ih]

/-- Success of cycle detection when every task carries an id. -/
lemma detect_some_of_ids (tasks : List Task)
    (hids : ∀ t ∈ tasks, t.id.isSome = true) :
    ∃ circ, detect_circular_dependencies tasks = some circ := by
  rcases foldl_buildStep_some tasks [] hids with ⟨tm, htm⟩
  exact ⟨_, by rw [detect_circular_dependencies,
    show buildTaskMap tasks = some tm from htm]; rfl⟩

/-- C4 counterexample: the claim quantifies over every task batch, but on a
batch containing a task with no id the source raises `KeyError` inside
`detect_circular_dependencies` and returns no sequence at all. -/
theorem C4_counterexample_missing_id :
    ¬ ∃ out, score_and_sort_tasks (get_weights "smart_balance") (fun _ => 0) 1
      [untitledTask] = some out := by
  rintro ⟨out, hout⟩
  rw [show score_and_sort_tasks (get_weights "smart_balance") (fun _ => 0) 1
    [untitledTask] = none from by decide] at hout
  exact Option.noConfusion hout

/-- C4 (amended to batches whose tasks all carry an id, the restriction the
counterexample forces): `score_and_sort_tasks` returns a permutation of the
annotated input records, sorted descending by `priority_score`, stable on
ties (the records carrying any fixed score keep their input order), with
output length equal to input length. -/
theorem C4_sort_permutation_stable (w : Weights) (pyhash : String → Int)
    (today : Int) (tasks : List Task)
    (hids : ∀ t ∈ tasks, t.id.isSome = true) :
    ∃ circ out,
      detect_circular_dependencies tasks = some circ ∧
      score_and_sort_tasks w pyhash today tasks = some out ∧
      out.Perm (tasks.map (score_one_in_batch w pyhash today circ tasks)) ∧
      List.Sorted (fun a b : ScoredTask => b.priority_score ≤ a.priority_score) out ∧
      (∀ q : ℚ, out.filter (fun s => decide (s.priority_score = q)) =
        (tasks.map (score_one_in_batch w pyhash today circ tasks)).filter
          (fun s => decide (s.priority_score = q))) ∧
      out.length = tasks.length := by
  rcases detect_some_of_ids tasks hids with ⟨circ, hcirc⟩
  refine ⟨circ, sortByScoreDesc (tasks.map (score_one_in_batch w pyhash today circ tasks)),
    hcirc, by rw [score_and_sort_tasks, hcirc]; rfl,
    sortByScoreDesc_perm _, sortByScoreDesc_sorted _,
    fun q => sortByScoreDesc_filter q _, ?_⟩
  rw [(sortByScoreDesc_perm _).length_eq, List.length_map]

/-- Witness for C4 on a concrete two-task batch. -/
theorem C4_sort_permutation_stable_witness :
    ∃ circ out,
      detect_circular_dependencies [depTask "1" [], depTask "2" ["1"]] = some circ ∧
      score_and_sort_tasks (get_weights "smart_balance") (fun _ => 0) 1
        [depTask "1" [], depTask "2" ["1"]] = some out ∧
      out.Perm ([depTask "1" [], depTask "2" ["1"]].map
        (score_one_in_batch (get_weights "smart_balance") (fun _ => 0) 1 circ
          [depTask "1" [], depTask "2" ["1"]])) ∧
      List.Sorted (fun a b : ScoredTask => b.priority_score ≤ a.priority_score) out ∧
      (∀ q : ℚ, out.filter (fun s => decide (s.priority_score = q)) =
        ([depTask "1" [], depTask "2" ["1"]].map
          (score_one_in_batch (get_weights "smart_balance") (fun _ => 0) 1 circ
            [depTask "1" [], depTask "2" ["1"]])).filter
          (fun s => decide (s.priority_score = q))) ∧
      out.length = [depTask "1" [], depTask "2" ["1"]].length :=
  C4_sort_permutation_stable (get_weights "smart_balance") (fun _ => 0) 1
    [depTask "1" [], depTask "2" ["1"]] (by decide)

/-! ## Claim C3: fields written onto a scored record -/

/-- C3: in a scored batch, each output record keeps every field of the
caller's record (`base` is the untouched input record) and gains exactly
the computed fields: `priority_score` is the weighted sum rounded to 2
decimals, `score_breakdown` holds the four sub-scores rounded to 1 decimal
plus a duplicate of the final score, and `has_circular_dependency` is
`some true` exactly when the task's (possibly surrogate) id is in the cycle
set and absent (`none`) otherwise — never `some false`. The record is the
one the returned batch contains. -/
theorem C3_fields_and_frame (w : Weights) (pyhash : String → Int)
    (today : Int) (tasks : List Task) (circ : List String) (task : Task)
    (hdet : detect_circular_dependencies tasks = some circ)
    (htask : task ∈ tasks) :
    (score_one_in_batch w pyhash today circ tasks task).base = task ∧
    (score_one_in_batch w pyhash today circ tasks task).priority_score =
      roundTo 2
        (calculate_urgency_score (task.due_date.getD (default_due_date today)) today
            * w.urgency +
          calculate_importance_score (task.importance.getD 5) * w.importance +
          calculate_effort_score (task.estimated_hours.getD 5) * w.effort +
          calculate_dependency_score (derive_task_id pyhash task) tasks
            * w.dependencies) ∧
    (score_one_in_batch w pyhash today circ tasks task).score_breakdown =
      ⟨roundTo 1 (calculate_urgency_score (task.due_date.getD (default_due_date today)) today),
       roundTo 1 (calculate_importance_score (task.importance.getD 5)),
       roundTo 1 (calculate_effort_score (task.estimated_hours.getD 5)),
       roundTo 1 (calculate_dependency_score (derive_task_id pyhash task) tasks),
       (score_one_in_batch w pyhash today circ tasks task).priority_score⟩ ∧
    (derive_task_id pyhash task ∈ circ →
      (score_one_in_batch w pyhash today circ tasks task).has_circular_dependency
        = some true) ∧
    (derive_task_id pyhash task ∉ circ →
      (score_one_in_batch w pyhash today circ tasks task).has_circular_dependency
        = none) ∧
    ∀ out, score_and_sort_tasks w pyhash today tasks = some out →
      score_one_in_batch w pyhash today circ tasks task ∈ out := by
  have hmem : ∀ out, score_and_sort_tasks w pyhash today tasks = some out →
      score_one_in_batch w pyhash today circ tasks task ∈ out := by
    intro out hout
    rw [score_and_sort_tasks, hdet] at hout
    have hout' : sortByScoreDesc
        (tasks.map (score_one_in_batch w pyhash today circ tasks)) = out :=
      Option.some.inj hout
    rw [← hout']
    exact (sortByScoreDesc_perm _).mem_iff.mpr
      (List.mem_map_of_mem (score_one_in_batch w pyhash today circ tasks) htask)
  by_cases hc : derive_task_id pyhash task ∈ circ
  · refine ⟨?_, ?_, ?_, fun _ => ?_, fun hnc => absurd hc hnc, hmem⟩ <;>
      simp only [score_one_in_batch, if_pos hc] <;> rfl
  · refine ⟨?_, ?_, ?_, fun hcc => absurd hcc hc, fun _ => ?_, hmem⟩ <;>
      simp only [score_one_in_batch, if_neg hc] <;> rfl

/-- Witness for C3 on task A of the cyclic three-task batch. -/
theorem C3_fields_and_frame_witness :
    (score_one_in_batch (get_weights "smart_balance") (fun _ => 0) 1
      ["B", "A", "C"] cyclicBatch (depTask "A" ["B"])).base = depTask "A" ["B"] ∧
    (score_one_in_batch (get_weights "smart_balance") (fun _ => 0) 1
      ["B", "A", "C"] cyclicBatch (depTask "A" ["B"])).priority_score =
      roundTo 2
        (calculate_urgency_score
            ((depTask "A" ["B"]).due_date.getD (default_due_date 1)) 1
            * (get_weights "smart_balance").urgency +
          calculate_importance_score ((depTask "A" ["B"]).importance.getD 5)
            * (get_weights "smart_balance").importance +
          calculate_effort_score ((depTask "A" ["B"]).estimated_hours.getD 5)
            * (get_weights "smart_balance").effort +
          calculate_dependency_score (derive_task_id (fun _ => 0) (depTask "A" ["B"]))
            cyclicBatch * (get_weights "smart_balance").dependencies) ∧
    (score_one_in_batch (get_weights "smart_balance") (fun _ => 0) 1
      ["B", "A", "C"] cyclicBatch (depTask "A" ["B"])).score_breakdown =
      ⟨roundTo 1 (calculate_urgency_score
          ((depTask "A" ["B"]).due_date.getD (default_due_date 1)) 1),
       roundTo 1 (calculate_importance_score ((depTask "A" ["B"]).importance.getD 5)),
       roundTo 1 (calculate_effort_score ((depTask "A" ["B"]).estimated_hours.getD 5)),
       roundTo 1 (calculate_dependency_score
          (derive_task_id (fun _ => 0) (depTask "A" ["B"])) cyclicBatch),
       (score_one_in_batch (get_weights "smart_balance") (fun _ => 0) 1
          ["B", "A", "C"] cyclicBatch (depTask "A" ["B"])).priority_score⟩ ∧
    (derive_task_id (fun _ => 0) (depTask "A" ["B"]) ∈ ["B", "A", "C"] →
      (score_one_in_batch (get_weights "smart_balance") (fun _ => 0) 1
        ["B", "A", "C"] cyclicBatch (depTask "A" ["B"])).has_circular_dependency
        = some true) ∧
    (derive_task_id (fun _ => 0) (depTask "A" ["B"]) ∉ ["B", "A", "C"] →
      (score_one_in_batch (get_weights "smart_balance") (fun _ => 0) 1
        ["B", "A", "C"] cyclicBatch (depTask "A" ["B"])).has_circular_dependency
        = none) ∧
    ∀ out, score_and_sort_tasks (get_weights "smart_balance") (fun _ => 0) 1
        cyclicBatch = some out →
      score_one_in_batch (get_weights "smart_balance") (fun _ => 0) 1
        ["B", "A", "C"] cyclicBatch (depTask "A" ["B"]) ∈ out :=
  C3_fields_and_frame (get_weights "smart_balance") (fun _ => 0) 1
    cyclicBatch ["B", "A", "C"] (depTask "A" ["B"]) (by decide) (by decide)

/-! ## Claim C1: missing ids -/

lemma countBD_le (s : Int) (n : Nat) : countBD s n ≤ n := by
  induction n generalizing s with
  | zero => exact le_refl 0
  | succ n ih =>
    unfold countBD
    have := ih (s + 1)
    by_cases h : is_weekend s
    · rw [if_pos h]; omega
    · rw [if_neg h]; omega

lemma count_business_days_cast_le (t d : Int) (h : t ≤ d) :
    (count_business_days t d : ℚ) ≤ ((d - t : Int) : ℚ) + 1 := by
  unfold count_business_days
  rw [if_neg (by omega : ¬ t > d)]
  have h1 : countBD t (d + 1 - t).toNat ≤ (d + 1 - t).toNat := countBD_le t _
  have h2 : (((d + 1 - t).toNat : Int)) = d + 1 - t := Int.toNat_of_nonneg (by omega)
  have h3 : ((countBD t (d + 1 - t).toNat : ℚ)) ≤ (((d + 1 - t).toNat : Nat) : ℚ) := by
    exact_mod_cast h1
  have h4 : (((d + 1 - t).toNat : Nat) : ℚ) = ((d - t : Int) : ℚ) + 1 := by
    have h5 : (((d + 1 - t).toNat : Nat) : ℚ) = (((d + 1 - t : Int)) : ℚ) := by
      exact_mod_cast congrArg (fun z : Int => (z : ℚ)) h2
    rw [h5]; push_cast; ring
  linarith

/-- The urgency score is never negative, whatever the due-date input. -/
lemma urgency_nonneg (x : DueDate) (today : Int) :
    0 ≤ calculate_urgency_score x today := by
  unfold calculate_urgency_score
  cases hp : parseDue x with
  | none => norm_num
  | some due =>
    dsimp only
    by_cases h0 : due - today < 0
    · rw [if_pos h0]
      have hmin : (0:ℚ) ≤ min (((due - today).natAbs : ℚ) * 5) 100 :=
        le_min (by positivity) (by norm_num)
      linarith
    · rw [if_neg h0]
      push_neg at h0
      have htd : today ≤ due := by omega
      have hbd0 : (0:ℚ) ≤ (count_business_days today due : ℚ) := Nat.cast_nonneg _
      have hbdle : (count_business_days today due : ℚ) ≤ ((due - today : Int) : ℚ) + 1 :=
        count_business_days_cast_le today due htd
      have hwp : (if is_weekend due = true then (5:ℚ) else 0) ≤ 5 ∧
          (0:ℚ) ≤ (if is_weekend due = true then (5:ℚ) else 0) := by
        by_cases h : is_weekend due = true
        · rw [if_pos h]; norm_num
        · rw [if_neg h]; norm_num
      by_cases h1 : due - today ≤ 1
      · rw [if_pos h1]; linarith [hwp.1]
      · rw [if_neg h1]
        by_cases h7 : due - today ≤ 7
        · rw [if_pos h7]
          have hcast7 : ((due - today : Int) : ℚ) ≤ 7 := by exact_mod_cast h7
          by_cases hb3 : (count_business_days today due : ℚ) ≤ 3
          · rw [if_pos hb3]; linarith [hwp.1]
          · rw [if_neg hb3]; linarith [hwp.1]
        · rw [if_neg h7]
          by_cases h14 : due - today ≤ 14
          · rw [if_pos h14]
            have hcast14 : ((due - today : Int) : ℚ) ≤ 14 := by exact_mod_cast h14
            linarith [hwp.1]
          · rw [if_neg h14]
            by_cases h30 : due - today ≤ 30
            · rw [if_pos h30]
              have hmax : (20:ℚ) ≤
                  max (50 - ((count_business_days today due : ℚ) - 10) * 1.5) 20 :=
                le_max_right _ _
              linarith [hwp.1]
            · rw [if_neg h30]
              have h31 : (7:Int) < due - today := by omega
              have hmax : (5:ℚ) ≤
                  max (20 - (((due - today : Int) : ℚ) - 30) * 0.5) 5 :=
                le_max_right _ _
              linarith

lemma importance_score_ge (i : Int) : 10 ≤ calculate_importance_score i := by
  unfold calculate_importance_score
  have h1 : (1 : Int) ≤ min (max i 1) 10 := le_min (le_max_right i 1) (by norm_num)
  have h2 : (1:ℚ) ≤ ((min (max i 1) 10 : Int) : ℚ) := by exact_mod_cast h1
  linarith

lemma dependency_score_ge (task_id : String) (tasks : List Task) :
    30 ≤ calculate_dependency_score task_id tasks := by
  unfold calculate_dependency_score
  dsimp only
  by_cases h : (tasks.filter (fun t => task_id ∈ deps t)).length = 0
  · rw [if_pos h]
  · rw [if_neg h]
    refine le_min ?_ (by norm_num)
    have : (0:ℚ) ≤ ((tasks.filter (fun t => task_id ∈ deps t)).length : ℚ) :=
      Nat.cast_nonneg _
    linarith

lemma get_weights_bounds (s : String) :
    0 ≤ (get_weights s).urgency ∧ 1/5 ≤ (get_weights s).importance ∧
    0 ≤ (get_weights s).effort ∧ 0 ≤ (get_weights s).dependencies := by
  unfold get_weights
  split_ifs <;> refine ⟨by norm_num, by norm_num, by norm_num, by norm_num⟩

lemma pyRoundInt_ge_floor (q : ℚ) : ⌊q⌋ ≤ pyRoundInt q := by
  unfold pyRoundInt
  dsimp only
  split_ifs <;> omega

lemma roundTo_two_pos {q : ℚ} (hq : 2 ≤ q) : 0 < roundTo 2 q := by
  have hsimp : roundTo 2 q = (pyRoundInt (q * 100) : ℚ) / 100 := by
    unfold roundTo; norm_num
  rw [hsimp]
  have h1 : (200 : Int) ≤ ⌊q * 100⌋ := Int.le_floor.mpr (by push_cast; linarith)
  have h2 := le_trans h1 (pyRoundInt_ge_floor (q * 100))
  have h3 : (200 : ℚ) ≤ (pyRoundInt (q * 100) : ℚ) := by exact_mod_cast h2
  linarith

/-- Under any strategy's weights, every scored record — in particular one
whose id was derived from the title hash — gets a strictly positive
priority score. -/
lemma priority_score_pos (strategy : String) (pyhash : String → Int)
    (today : Int) (task : Task) (tasks : List Task) :
    0 < (calculate_priority_score (get_weights strategy) pyhash today
      task tasks).priority_score := by
  have hw := get_weights_bounds strategy
  have hu := urgency_nonneg (task.due_date.getD (default_due_date today)) today
  have he := effort_score_bounds (task.estimated_hours.getD 5)
  have hi := importance_score_ge (task.importance.getD 5)
  have hd := dependency_score_ge (derive_task_id pyhash task) tasks
  have hfinal : 2 ≤
      calculate_urgency_score (task.due_date.getD (default_due_date today)) today
          * (get_weights strategy).urgency
        + calculate_importance_score (task.importance.getD 5)
          * (get_weights strategy).importance
        + calculate_effort_score (task.estimated_hours.getD 5)
          * (get_weights strategy).effort
        + calculate_dependency_score (derive_task_id pyhash task) tasks
          * (get_weights strategy).dependencies := by
    have t1 : 0 ≤ calculate_urgency_score
        (task.due_date.getD (default_due_date today)) today
        * (get_weights strategy).urgency := mul_nonneg hu hw.1
    have t2 : (2:ℚ) ≤ calculate_importance_score (task.importance.getD 5)
        * (get_weights strategy).importance := by
      calc (2:ℚ) = 10 * (1/5) := by norm_num
      _ ≤ calculate_importance_score (task.importance.getD 5)
          * (get_weights strategy).importance :=
        mul_le_mul hi hw.2.1 (by norm_num) (by linarith)
    have t3 : 0 ≤ calculate_effort_score (task.estimated_hours.getD 5)
        * (get_weights strategy).effort := mul_nonneg (by linarith [he.1]) hw.2.2.1
    have t4 : 0 ≤ calculate_dependency_score (derive_task_id pyhash task) tasks
        * (get_weights strategy).dependencies := mul_nonneg (by linarith [hd]) hw.2.2.2
    linarith
  have hproj : (calculate_priority_score (get_weights strategy) pyhash today
      task tasks).priority_score = roundTo 2
      (calculate_urgency_score (task.due_date.getD (default_due_date today)) today
          * (get_weights strategy).urgency
        + calculate_importance_score (task.importance.getD 5)
          * (get_weights strategy).importance
        + calculate_effort_score (task.estimated_hours.getD 5)
          * (get_weights strategy).effort
        + calculate_dependency_score (derive_task_id pyhash task) tasks
          * (get_weights strategy).dependencies) := rfl
  rw [hproj]
  exact roundTo_two_pos hfinal

/-- C1: the claim is the spec's intent but the code breaks it.
`score_and_sort_tasks` on a batch holding a task without an id raises
`KeyError` (modelled `none`) inside `detect_circular_dependencies`, which
reads `t['id']` without the surrogate fallback — even though the scoring
path itself (`calculate_priority_score`, third conjunct) does derive the
surrogate and would give the task a strictly positive score. -/
theorem C1_missing_id_keyerror :
    detect_circular_dependencies [titleOnlyTask] = none ∧
    score_and_sort_tasks (get_weights "smart_balance") (fun _ => 0) 1
      [titleOnlyTask] = none ∧
    0 < (calculate_priority_score (get_weights "smart_balance") (fun _ => 0) 1
      titleOnlyTask [titleOnlyTask]).priority_score :=
  ⟨by decide, by decide, priority_score_pos "smart_balance" (fun _ => 0) 1 _ _⟩

end TaskAnalyzer

